import Mathlib

/-!
Verification of the Voyager dependency-analysis engine.

This development shallowly embeds the core of the Voyager repository
(packages/core: script parser, Vue parser, path resolver, dependency
analyzer; packages/cli: the cycle detector of the stats command) as
executable Lean definitions, and settles a list of claims about them.

External collaborators (the filesystem, the `@vue/compiler-sfc` SFC
splitter, and the Node `path` module) are modelled at their interface
boundary: the filesystem as an explicit `World` value, the SFC splitter
as a function field of the world, and the `path` primitives as
segment-based implementations of their documented POSIX behaviour.
-/

namespace Voyager

/-! ### Character classes and small string helpers

JS regular-expression character classes, restricted to the ASCII inputs
the analyzed sources consist of. -/

/-- JS `\s` (ASCII part): space, tab, newline, carriage return, vertical
tab, form feed. -/
def isWs (c : Char) : Bool :=
  c = ' ' || c = '\t' || c = '\n' || c = '\r' || c = Char.ofNat 11 || c = Char.ofNat 12

/-- First character of a JS identifier as used in the source regexes:
`[A-Za-z_$]`. -/
def isIdentStart (c : Char) : Bool :=
  (('A' ≤ c && c ≤ 'Z') || ('a' ≤ c && c ≤ 'z')) || c = '_' || c = '$'

/-- `[A-Za-z0-9_$]`. -/
def isIdentChar (c : Char) : Bool :=
  isIdentStart c || ('0' ≤ c && c ≤ '9')

/-- JS `\w`: `[A-Za-z0-9_]`. -/
def isWordChar (c : Char) : Bool :=
  (('A' ≤ c && c ≤ 'Z') || ('a' ≤ c && c ≤ 'z')) || ('0' ≤ c && c ≤ '9') || c = '_'

/-- `[A-Z]`. -/
def isUpper (c : Char) : Bool := 'A' ≤ c && c ≤ 'Z'

/-- The two JS string-quote characters `'` and `"` (regex class `['"]`). -/
def isQuote (c : Char) : Bool := c = Char.ofNat 39 || c = Char.ofNat 34

/-- `'`, `"` or a backtick (regex class of the string-stripping pass). -/
def isAnyQuote (c : Char) : Bool := isQuote c || c = Char.ofNat 96

/-- `s.startsWith(pre)` on the underlying character lists. -/
def strStarts (s pre : String) : Bool :=
  decide (s.data.take pre.data.length = pre.data)

/-- `s.endsWith(suf)` on the underlying character lists. -/
def strEnds (s suf : String) : Bool :=
  decide (s.data.reverse.take suf.data.length = suf.data.reverse)

/-- `s.includes(sub)` for non-empty `sub`: some position of `s` starts
with `sub`. -/
def strIncludes (s sub : String) : Bool :=
  (List.range (s.data.length + 1)).any fun i =>
    decide ((s.data.drop i).take sub.data.length = sub.data)

/-- Split a character list at every occurrence of the separator
character (JS `String.prototype.split` with a one-character separator). -/
def splitChars (sep : Char) : List Char → List (List Char)
  | [] => [[]]
  | c :: cs =>
    let r := splitChars sep cs
    if c = sep then [] :: r
    else
      match r with
      | [] => [[c]]
      | p :: ps => (c :: p) :: ps

/-- JS `String.prototype.trim` restricted to the modelled whitespace. -/
def trimChars (cs : List Char) : List Char :=
  ((cs.dropWhile isWs).reverse.dropWhile isWs).reverse

def strOfChars (cs : List Char) : String := String.mk cs

/-- The slice of `cs` from index `a` (inclusive) to `b` (exclusive), as a
string. -/
def sliceStr (cs : List Char) (a b : Nat) : String :=
  strOfChars ((cs.drop a).take (b - a))

/-! ### Node `path` primitives (POSIX)

The analyzed code uses `resolve`, `dirname`, `join`, `isAbsolute` and
`relative` from Node's `path` module, always with absolute base paths.
They are modelled on `/`-separated segment lists with `.`/`..`
normalization. -/

/-- Non-empty `/`-separated segments of a path. -/
def splitPath (p : String) : List String :=
  ((splitChars '/' p.data).filter (· ≠ [])).map strOfChars

/-- Resolve `.` and `..` segments (the path is rooted, so a leading `..`
vanishes, as in POSIX `path.resolve`). -/
def normSegs (segs : List String) : List String :=
  segs.foldl
    (fun acc s =>
      if s = "." then acc
      else if s = ".." then acc.dropLast
      else acc ++ [s])
    []

/-- Rebuild an absolute path from segments. -/
def mkPath (segs : List String) : String :=
  "/" ++ String.intercalate "/" segs

/-- `path.isAbsolute` (POSIX). -/
def pathIsAbs (p : String) : Bool := strStarts p "/"

/-- `path.resolve(base, p)` where `base` is absolute. -/
def pathResolve (base p : String) : String :=
  if pathIsAbs p then mkPath (normSegs (splitPath p))
  else mkPath (normSegs (splitPath base ++ splitPath p))

/-- `path.resolve(base, p, q)` where `base` is absolute. -/
def pathResolve3 (base p q : String) : String :=
  pathResolve (pathResolve base p) q

/-- `path.join(a, b)` for an absolute `a`. -/
def pathJoin (a b : String) : String :=
  mkPath (normSegs (splitPath a ++ splitPath b))

/-- `path.join(a, b, c)` for an absolute `a`. -/
def pathJoin3 (a b c : String) : String :=
  pathJoin (pathJoin a b) c

/-- `path.dirname` for absolute paths. -/
def pathDirname (p : String) : String :=
  mkPath ((splitPath p).dropLast)

/-- `path.relative(fromP, toP)` for absolute arguments. -/
def pathRelative (fromP toP : String) : String :=
  let f := normSegs (splitPath fromP)
  let t := normSegs (splitPath toP)
  let c := (List.zip f t).takeWhile (fun ab => ab.1 = ab.2) |>.length
  String.intercalate "/" (List.replicate (f.length - c) ".." ++ t.drop c)

/-! ### The world: filesystem state and the external SFC splitter -/

/-- One block of a Vue single-file component, as returned by the external
`@vue/compiler-sfc` splitter: its text and its `lang` attribute. -/
structure SfcBlock where
  content : String
  lang : Option String
deriving DecidableEq

/-- The part of an `@vue/compiler-sfc` `parse` result consumed by
`parseVue`: whether errors were reported, and the `script` /
`scriptSetup` blocks of the descriptor. -/
structure SfcOut where
  hasErrors : Bool
  script : Option SfcBlock
  scriptSetup : Option SfcBlock

/-- A fixed filesystem state plus the external SFC splitter.
`files` maps the paths of existing regular files to their contents
(`readFileSync` succeeds exactly on them); `dirs` lists existing
directories; `pkgMain` gives, for a `package.json` path, the `main`
field when the file parses as JSON and has one (JSON-parse errors and
missing fields are both `none`). -/
structure World where
  files : List (String × String)
  dirs : List String
  pkgMain : List (String × String)
  sfc : String → SfcOut

/-- `readFileSync(p, 'utf-8')`, `none` modelling a thrown error. -/
def World.readFile (w : World) (p : String) : Option String :=
  (w.files.find? (fun e => e.1 = p)).map (·.2)

/-- `existsSync(p)`. -/
def World.existsFS (w : World) (p : String) : Bool :=
  (w.files.any (fun e => e.1 = p)) || w.dirs.contains p

/-- `statSync(p).isDirectory()` for an existing `p`. -/
def World.isDir (w : World) (p : String) : Bool :=
  w.dirs.contains p

/-- The `main` field of the `package.json` at `p`, when readable,
JSON-parsable and present. -/
def World.mainOf (w : World) (p : String) : Option String :=
  (w.pkgMain.find? (fun e => e.1 = p)).map (·.2)

/-! ### Module path resolver (`packages/core/src/resolver/path-resolver.ts`) -/

/-- Options of the `PathResolver` constructor. -/
structure PathResolverOptions where
  rootDir : String
  baseUrl : Option String := none
  paths : List (String × List String) := []
  resolveNodeModules : Option Bool := none

/-- The constructed resolver state (`rootDir` and `baseUrl` already made
absolute, defaults applied). -/
structure PathResolver where
  rootDir : String
  baseUrl : String
  paths : List (String × List String)
  resolveNodeModules : Bool

/-- The `PathResolver` constructor. `resolve(options.rootDir)` is
modelled for an absolute `rootDir` argument. -/
def PathResolver.ofOptions (o : PathResolverOptions) : PathResolver :=
  let root := pathResolve "/" o.rootDir
  { rootDir := root
    baseUrl :=
      match o.baseUrl with
      | some b => pathResolve root b
      | none => root
    paths := o.paths
    resolveNodeModules := o.resolveNodeModules.getD true }

/-- `ResolveResult`. -/
structure ResolveResult where
  resolvedPath : Option String
  error : Option String := none
deriving DecidableEq

def rOk (p : String) : ResolveResult := { resolvedPath := some p }

def rErr (e : String) : ResolveResult := { resolvedPath := none, error := some e }

/-- The probing extension order of the resolver. -/
def extList : List String := [".vue", ".ts", ".tsx", ".js", ".jsx", ".json"]

/-- The `index.<ext>` search inside a directory, shared by steps 1 and 3
of `resolveWithExtension`. -/
def findIndexFile (w : World) (base : String) : Option String :=
  extList.findSome? fun ext =>
    let ip := pathJoin base ("index" ++ ext)
    if w.existsFS ip then some ip else none

/-- `PathResolver.resolveWithExtension`: exact path, then appended
extensions, then directory `index.*`, then the `package.json` `main`
fallback for `node_modules` paths. A directory whose `index.*` search
fails falls through to the later steps, exactly as in the source. -/
def resolveWithExtension (w : World) (basePath : String) : ResolveResult :=
  -- 1. complete path (a directory searches for index.*)
  let step1 : Option String :=
    if w.existsFS basePath then
      if w.isDir basePath then findIndexFile w basePath
      else some basePath
    else none
  match step1 with
  | some p => rOk p
  | none =>
    -- 2. appended extensions
    let step2 : Option String :=
      extList.findSome? fun ext =>
        let pe := basePath ++ ext
        if w.existsFS pe then some pe else none
    match step2 with
    | some p => rOk p
    | none =>
      -- 3. directory index.* search (again)
      let step3 : Option String :=
        if w.existsFS basePath && w.isDir basePath then findIndexFile w basePath
        else none
      match step3 with
      | some p => rOk p
      | none =>
        -- 4. package.json main (node_modules only); `if (pkg.main)` is a
        -- JS truthiness test, so an empty main field is skipped
        let step4 : Option String :=
          if strIncludes basePath "node_modules" then
            let pkgPath := pathJoin basePath "package.json"
            if w.existsFS pkgPath then
              match w.mainOf pkgPath with
              | some m =>
                if m ≠ "" then
                  let mainPath := pathJoin basePath m
                  if w.existsFS mainPath then some mainPath else none
                else none
              | none => none
            else none
          else none
        match step4 with
        | some p => rOk p
        | none => rErr ("File does not exist: " ++ basePath)

/-- The ancestor walk of `resolveNodeModule`: starting from
`dirname(fromFile)`, probe `<dir>/node_modules/<importPath>` of each
directory strictly below the root, walking upward. Fuel bounds the walk;
`(splitPath dir).length + 1` steps always reach `/`. -/
def nodeModuleWalk (w : World) (rootDir importPath : String) : Nat → String → ResolveResult
  | 0, _ => rErr ("Module not found: " ++ importPath)
  | fuel + 1, dir =>
    if dir = rootDir || dir = "/" || dir = "." then
      rErr ("Module not found: " ++ importPath)
    else
      let r := resolveWithExtension w (pathJoin3 dir "node_modules" importPath)
      match r.resolvedPath with
      | some _ => r
      | none => nodeModuleWalk w rootDir importPath fuel (pathDirname dir)

/-- `PathResolver.resolveNodeModule`. -/
def resolveNodeModule (w : World) (r : PathResolver) (importPath fromFile : String) :
    ResolveResult :=
  let rootResult := resolveWithExtension w (pathJoin3 r.rootDir "node_modules" importPath)
  match rootResult.resolvedPath with
  | some _ => rootResult
  | none =>
    let start := pathDirname fromFile
    nodeModuleWalk w r.rootDir importPath ((splitPath start).length + 1) start

/-- `replace(/\*$/, '')`: drop a single trailing `*`. -/
def stripTrailStar (s : String) : String :=
  if strEnds s "*" then strOfChars s.data.dropLast else s

/-- `PathResolver.resolveAliasPath`: for each alias whose prefix (the
pattern with its trailing `*` stripped) matches, probe every target in
declared order; the first probe success wins. -/
def resolveAliasPath (w : World) (r : PathResolver) (importPath : String) : ResolveResult :=
  let hit : Option String :=
    r.paths.findSome? fun al =>
      let pat := stripTrailStar al.1
      if strStarts importPath pat then
        let suffix := strOfChars (importPath.data.drop pat.data.length)
        al.2.findSome? fun target =>
          let rp := pathResolve3 r.rootDir (stripTrailStar target) suffix
          (resolveWithExtension w rp).resolvedPath
      else none
  match hit with
  | some p => rOk p
  | none => rErr ("Cannot resolve alias path: " ++ importPath)

/-- `PathResolver.resolveRelativePath`: `.`-specifiers resolve against
the importing file's directory, anything else against `baseUrl`. -/
def resolveRelativePath (w : World) (r : PathResolver) (importPath fromFile : String) :
    ResolveResult :=
  if strStarts importPath "." then
    resolveWithExtension w (pathResolve (pathDirname fromFile) importPath)
  else
    resolveWithExtension w (pathResolve r.baseUrl importPath)

/-- `PathResolver.resolve`: validation, absolute specifiers, the
`@`/`#` alias attempt, the `node_modules` step (with its disabled-flag
failure), and the relative/baseUrl fallback, in source order. -/
def PathResolver.resolve (w : World) (r : PathResolver) (importPath fromFile : String) :
    ResolveResult :=
  if importPath = "" then rErr "Invalid path"
  else if pathIsAbs importPath then resolveWithExtension w importPath
  else
    let aliasHit : Option ResolveResult :=
      if strStarts importPath "@" || strStarts importPath "#" then
        let ar := resolveAliasPath w r importPath
        match ar.resolvedPath with
        | some _ => some ar
        | none => none
      else none
    match aliasHit with
    | some res => res
    | none =>
      if !strStarts importPath "." then
        if !r.resolveNodeModules then rErr "node_modules resolution is disabled"
        else
          let mr := resolveNodeModule w r importPath fromFile
          match mr.resolvedPath with
          | some _ => mr
          | none => resolveRelativePath w r importPath fromFile
      else resolveRelativePath w r importPath fromFile

/-! ### Matching machinery for the source's regular expressions

Each regex of the source is hand-compiled to a deterministic matcher on
a character list. A matcher takes the list and a start index and
returns the index just past the match. Greedy maximal munch is
equivalent to JS backtracking for every pattern below because each
greedy class is always followed by a character it cannot consume. -/

/-- Match a literal. -/
def mLit (lit : List Char) (cs : List Char) (i : Nat) : Option Nat :=
  match lit with
  | [] => some i
  | l :: ls =>
    match cs.get? i with
    | some c => if c = l then mLit ls cs (i + 1) else none
    | none => none

/-- Match one character of a class. -/
def mCls (p : Char → Bool) (cs : List Char) (i : Nat) : Option Nat :=
  match cs.get? i with
  | some c => if p c then some (i + 1) else none
  | none => none

/-- Greedy `p*`: the index of the first position at or after `i` whose
character fails `p` (or the end). -/
def mManyA (p : Char → Bool) (cs : List Char) : Nat → Nat → Nat
  | 0, i => i
  | fuel + 1, i =>
    match cs.get? i with
    | some c => if p c then mManyA p cs fuel (i + 1) else i
    | none => i

def mMany (p : Char → Bool) (cs : List Char) (i : Nat) : Nat :=
  mManyA p cs (cs.length + 1) i

/-- Greedy `p+`. -/
def mMany1 (p : Char → Bool) (cs : List Char) (i : Nat) : Option Nat :=
  let j := mMany p cs i
  if i < j then some j else none

/-- `\s*`. -/
def mWs0 (cs : List Char) (i : Nat) : Nat := mMany isWs cs i

/-- `\s+`. -/
def mWs1 (cs : List Char) (i : Nat) : Option Nat := mMany1 isWs cs i

/-- Find all non-overlapping matches scanning left to right, with their
start positions: the behaviour of an exhausted `exec` loop on a
`g`-flagged regex (and of `String.prototype.match` with `g`). Every
matcher below consumes at least one character, so the scan position
advances each step; fuel `cs.length + 1` suffices. -/
def findAllA (m : List Char → Nat → Option (Nat × α)) (cs : List Char) :
    Nat → Nat → List (Nat × α)
  | 0, _ => []
  | fuel + 1, i =>
    if i < cs.length then
      match m cs i with
      | some (j, a) => (i, a) :: findAllA m cs fuel (max j (i + 1))
      | none => findAllA m cs fuel (i + 1)
    else []

def findAllPos (m : List Char → Nat → Option (Nat × α)) (cs : List Char) :
    List (Nat × α) :=
  findAllA m cs (cs.length + 1) 0

def findAll (m : List Char → Nat → Option (Nat × α)) (cs : List Char) : List α :=
  (findAllPos m cs).map (·.2)

/-- First match anywhere (`String.prototype.match` without `g`, or
`RegExp.prototype.test`), scanning start positions left to right. -/
def firstMatchA (m : List Char → Nat → Option (Nat × α)) (cs : List Char) :
    Nat → Nat → Option (Nat × α)
  | 0, _ => none
  | fuel + 1, i =>
    if i < cs.length then
      match m cs i with
      | some (j, a) => some (j, a)
      | none => firstMatchA m cs fuel (i + 1)
    else none

def firstMatch (m : List Char → Nat → Option (Nat × α)) (cs : List Char) :
    Option (Nat × α) :=
  firstMatchA m cs (cs.length + 1) 0

/-- `re.test(s)` for a pattern compiled to `m`. -/
def mTest (m : List Char → Nat → Option (Nat × Unit)) (cs : List Char) : Bool :=
  (firstMatch m cs).isSome

/-! ### Import/export extraction (`packages/core/src/parser/script-parser.ts`) -/

/-- One specifier of a named import: `imported` name and its `local`
alias (`localName` here; `local` is a Lean keyword). -/
structure ImportSpecifier where
  imported : String
  localName : String
deriving DecidableEq

/-- `ImportStatement`. Fields a push site leaves out in the source
(`hasDefault`, `defaultLocal`) default like the absent JS properties. -/
structure ImportStatement where
  source : String
  hasDefault : Bool := false
  defaultLocal : Option String := none
  specifiers : List ImportSpecifier
deriving DecidableEq

/-- `ExportInfo`. -/
structure ExportInfo where
  hasDefault : Bool
  named : List String
deriving DecidableEq

/-- Trailing part shared by all `from`-style import regexes:
`['"]([^'"]+)['"]` — a quote, a non-empty run of non-quote characters
(the captured module source), a quote. -/
def mQuotedSource (cs : List Char) (i : Nat) : Option (Nat × String) := do
  let i ← mCls isQuote cs i
  let b := i
  let i ← mMany1 (fun c => !isQuote c) cs i
  let e := i
  let i ← mCls isQuote cs i
  return (i, sliceStr cs b e)

/-- `IMPORT_REGEX.DEFAULT`:
`import\s+([A-Za-z_$][A-Za-z0-9_$]*)\s+from\s+['"]([^'"]+)['"]`. -/
def matchImportDefault (cs : List Char) (i : Nat) : Option (Nat × ImportStatement) := do
  let i ← mLit "import".data cs i
  let i ← mWs1 cs i
  let b := i
  let i ← mCls isIdentStart cs i
  let i := mMany isIdentChar cs i
  let name := sliceStr cs b i
  let i ← mWs1 cs i
  let i ← mLit "from".data cs i
  let i ← mWs1 cs i
  let (i, src) ← mQuotedSource cs i
  return (i, { source := src, hasDefault := true, defaultLocal := some name, specifiers := [] })

/-- The `{([^}]+)}` part: captured body between braces. -/
def mBraceBody (cs : List Char) (i : Nat) : Option (Nat × String) := do
  let i ← mCls (· = Char.ofNat 123) cs i
  let b := i
  let i ← mMany1 (fun c => c ≠ Char.ofNat 125) cs i
  let e := i
  let i ← mCls (· = Char.ofNat 125) cs i
  return (i, sliceStr cs b e)

/-- `specifier.split(/\s+as\s+/)` boundaries: `\s+as\s+`. -/
def mAsSep (cs : List Char) (i : Nat) : Option (Nat × Nat) := do
  let i ← mWs1 cs i
  let i ← mLit "as".data cs i
  let i ← mWs1 cs i
  return (i, i)

/-- `parseNamedImportSpecifiers`: split the brace body on commas, trim,
drop empties, then split each on `\s+as\s+` and take the first two
parts (`local` defaults to `imported`; an empty `local` is falsy). -/
def parseNamedImportSpecifiers (s : String) : List ImportSpecifier :=
  (((splitChars ',' s.data).map trimChars).filter (· ≠ [])).map fun spec =>
    let parts :=
      match findAllPos mAsSep spec with
      | [] => [strOfChars spec]
      | (st, en) :: rest =>
        let firstPart := strOfChars (spec.take st)
        let secondEnd :=
          match rest with
          | [] => spec.length
          | (st2, _) :: _ => st2
        [firstPart, strOfChars ((spec.drop en).take (secondEnd - en))]
    let imported := strOfChars (trimChars (parts.headD "").data)
    let localPart := strOfChars (trimChars ((parts.drop 1).headD "").data)
    { imported := imported
      localName := if parts.length ≤ 1 || localPart = "" then imported else localPart }

/-- `IMPORT_REGEX.NAMED`: `import\s+{([^}]+)}\s+from\s+['"]([^'"]+)['"]`. -/
def matchImportNamed (cs : List Char) (i : Nat) : Option (Nat × ImportStatement) := do
  let i ← mLit "import".data cs i
  let i ← mWs1 cs i
  let (i, body) ← mBraceBody cs i
  let i ← mWs1 cs i
  let i ← mLit "from".data cs i
  let i ← mWs1 cs i
  let (i, src) ← mQuotedSource cs i
  return (i, { source := src, specifiers := parseNamedImportSpecifiers body })

/-- `IMPORT_REGEX.MIXED`:
`import\s+([A-Za-z_$][A-Za-z0-9_$]*)\s*,\s*{([^}]+)}\s+from\s+['"]([^'"]+)['"]`. -/
def matchImportMixed (cs : List Char) (i : Nat) : Option (Nat × ImportStatement) := do
  let i ← mLit "import".data cs i
  let i ← mWs1 cs i
  let b := i
  let i ← mCls isIdentStart cs i
  let i := mMany isIdentChar cs i
  let name := sliceStr cs b i
  let i := mWs0 cs i
  let i ← mCls (· = ',') cs i
  let i := mWs0 cs i
  let (i, body) ← mBraceBody cs i
  let i ← mWs1 cs i
  let i ← mLit "from".data cs i
  let i ← mWs1 cs i
  let (i, src) ← mQuotedSource cs i
  return (i, { source := src, hasDefault := true, defaultLocal := some name,
               specifiers := parseNamedImportSpecifiers body })

/-- `IMPORT_REGEX.SIDE_EFFECT`: `import\s+['"]([^'"]+)['"]`. -/
def matchImportSide (cs : List Char) (i : Nat) : Option (Nat × ImportStatement) := do
  let i ← mLit "import".data cs i
  let i ← mWs1 cs i
  let (i, src) ← mQuotedSource cs i
  return (i, { source := src, specifiers := [] })

/-- `EXPORT_REGEX.DEFAULT` (`.test`): `export\s+default\s+`. -/
def matchExportDefault (cs : List Char) (i : Nat) : Option (Nat × Unit) := do
  let i ← mLit "export".data cs i
  let i ← mWs1 cs i
  let i ← mLit "default".data cs i
  let i ← mWs1 cs i
  return (i, ())

/-- `EXPORT_REGEX.NAMED`: `export\s+{([^}]+)}`, capturing the body. -/
def matchExportNamed (cs : List Char) (i : Nat) : Option (Nat × String) := do
  let i ← mLit "export".data cs i
  let i ← mWs1 cs i
  let (i, body) ← mBraceBody cs i
  return (i, body)

/-- `EXPORT_REGEX.DECLARATION`:
`export\s+(const|let|var|function|class)\s+([A-Za-z_$][A-Za-z0-9_$]*)`.
The keyword alternatives have pairwise distinct literal text, so trying
them in order is JS alternation. -/
def matchExportDecl (cs : List Char) (i : Nat) : Option (Nat × String) := do
  let i ← mLit "export".data cs i
  let i ← mWs1 cs i
  let tryKw : String → Option (Nat × String) := fun kw => do
    let i ← mLit kw.data cs i
    let i ← mWs1 cs i
    let b := i
    let i ← mCls isIdentStart cs i
    let i := mMany isIdentChar cs i
    return (i, sliceStr cs b i)
  (tryKw "const").orElse fun _ =>
    (tryKw "let").orElse fun _ =>
      (tryKw "var").orElse fun _ =>
        (tryKw "function").orElse fun _ => tryKw "class"

/-- The import list extracted from one file content: all default
imports, then all named, then all mixed, then all side-effect imports,
each group in textual order — the four exhausted `exec` loops of
`parseScript` in their source order. -/
def extractImports (content : String) : List ImportStatement :=
  let cs := content.data
  findAll matchImportDefault cs ++ findAll matchImportNamed cs ++
    findAll matchImportMixed cs ++ findAll matchImportSide cs

/-- The export info extracted from one file content. -/
def extractExports (content : String) : ExportInfo :=
  let cs := content.data
  let namedLists :=
    (findAll matchExportNamed cs).flatMap fun body =>
      (((splitChars ',' body.data).map trimChars).filter (· ≠ [])).map strOfChars
  let declNames := findAll matchExportDecl cs
  { hasDefault := mTest matchExportDefault cs
    named := namedLists ++ declNames }

/-! ### Parse results and the script parser proper -/

/-- `FileType`: `'vue' | 'script' | 'definition'`. -/
inductive FileType where
  | vue
  | script
  | definition
deriving DecidableEq

/-- `ScriptType` (the `'class'` variant is `classStyle`; `class` is a
Lean keyword). -/
inductive ScriptType where
  | composition
  | options
  | mixed
  | functional
  | classStyle
  | unknown
deriving DecidableEq

/-- `ScriptLang`: `'ts' | 'js' | 'unknown'`. -/
inductive ScriptLang where
  | ts
  | js
  | unknown
deriving DecidableEq

/-- `ParseResult`. The `error` field carries a message string; the
claims only observe whether it is populated. -/
structure ParseResult where
  type : FileType
  filePath : String
  scriptType : Option ScriptType := none
  scriptLang : ScriptLang
  imports : List ImportStatement
  exports : ExportInfo
  error : Option String := none
deriving DecidableEq

/-- `detectScriptLang` of the script parser: from the file extension. -/
def detectLangOfExt (filePath : String) : ScriptLang :=
  if strEnds filePath ".ts" || strEnds filePath ".tsx" then .ts
  else if strEnds filePath ".js" || strEnds filePath ".jsx" then .js
  else .unknown

/-- The `'definition'`/`'script'` tag of the script parser. -/
def scriptFileType (filePath : String) : FileType :=
  if strEnds filePath ".d.ts" then .definition else .script

/-- `parseScript`: read the file once; on success extract imports and
exports from the whole content; on read failure return the fallback
result with a populated error. -/
def parseScript (w : World) (filePath : String) : ParseResult :=
  match w.readFile filePath with
  | some content =>
    { type := scriptFileType filePath
      filePath := filePath
      scriptLang := detectLangOfExt filePath
      imports := extractImports content
      exports := extractExports content }
  | none =>
    { type := scriptFileType filePath
      filePath := filePath
      scriptLang := detectLangOfExt filePath
      imports := []
      exports := { hasDefault := false, named := [] }
      error := some "read failure" }

/-! ### Comment/string stripping (`vue-parser.ts`, `removeCommentsAndStrings`) -/

/-- Truncate one line at its first `//` (the per-line effect of
`replace(/\/\/.*$/gm, '')`). -/
def cutLineComment : List Char → List Char
  | [] => []
  | [a] => [a]
  | a :: b :: rest =>
    if a = '/' && b = '/' then []
    else a :: cutLineComment (b :: rest)

/-- The remainder after the lazily-nearest `*/`, if any. -/
def findCloseStar : List Char → Option (List Char)
  | [] => none
  | [_] => none
  | a :: b :: rest =>
    if a = '*' && b = '/' then some rest
    else findCloseStar (b :: rest)

/-- `replace(/\/\*[\s\S]*?\*\//g, '')`: delete each `/*`..`*/` span; an
unterminated `/*` is left in place. -/
def cutBlockComments : Nat → List Char → List Char
  | 0, l => l
  | _ + 1, [] => []
  | _ + 1, [a] => [a]
  | fuel + 1, a :: b :: rest =>
    if a = '/' && b = '*' then
      match findCloseStar rest with
      | some rem => cutBlockComments fuel rem
      | none => a :: b :: rest
    else a :: cutBlockComments fuel (b :: rest)

/-- The remainder after the closing quote `q`, skipping
backslash-escaped pairs; `none` when the literal never closes (a
trailing lone backslash also fails, as in the source regex). -/
def findStringClose (q : Char) : List Char → Option (List Char)
  | [] => none
  | c :: rest =>
    if c = q then some rest
    else if c = '\\' then
      match rest with
      | [] => none
      | _ :: rest2 => findStringClose q rest2
    else findStringClose q rest

/-- `replace(/(["'`])(?:(?=(\\?))\2[\s\S])*?\1/g, '""')`: each closed
string/template literal becomes `""`; an unclosed quote stays. -/
def stripStrings : Nat → List Char → List Char
  | 0, l => l
  | _ + 1, [] => []
  | fuel + 1, c :: rest =>
    if isAnyQuote c then
      match findStringClose c rest with
      | some rem => Char.ofNat 34 :: Char.ofNat 34 :: stripStrings fuel rem
      | none => c :: stripStrings fuel rest
    else c :: stripStrings fuel rest

/-- Re-join lines with `\n`. -/
def joinLines : List (List Char) → List Char
  | [] => []
  | [l] => l
  | l :: ls => l ++ '\n' :: joinLines ls

/-- `removeCommentsAndStrings`: line comments, then block comments, then
string/template literals. -/
def removeCommentsAndStrings (content : String) : String :=
  let l1 := joinLines (((splitChars '\n' content.data)).map cutLineComment)
  let l2 := cutBlockComments (l1.length + 1) l1
  let l3 := stripStrings (l2.length + 1) l2
  strOfChars l3

/-! ### Script-style classification (`vue-parser.ts`, `detectScriptType`) -/

/-- Lift an index matcher to a unit-valued one for `mTest`. -/
def mUnit (f : List Char → Nat → Option Nat) : List Char → Nat → Option (Nat × Unit) :=
  fun cs i => (f cs i).map fun j => (j, ())

/-- `re.test(content)` for a pattern compiled as an index matcher. -/
def testPat (f : List Char → Nat → Option Nat) (s : String) : Bool :=
  mTest (mUnit f) s.data

/-- `<name>\s*:`. -/
def patColon (name : String) (cs : List Char) (i : Nat) : Option Nat := do
  let i ← mLit name.data cs i
  let i := mWs0 cs i
  mCls (· = ':') cs i

/-- `<name>\s*\(\s*\)`. -/
def patCall (name : String) (cs : List Char) (i : Nat) : Option Nat := do
  let i ← mLit name.data cs i
  let i := mWs0 cs i
  let i ← mCls (· = '(') cs i
  let i := mWs0 cs i
  mCls (· = ')') cs i

/-- `provide\s*[:(]`. -/
def patProvide (cs : List Char) (i : Nat) : Option Nat := do
  let i ← mLit "provide".data cs i
  let i := mWs0 cs i
  mCls (fun c => c = ':' || c = '(') cs i

/-- `setup\s*\(`. -/
def patSetupParen (cs : List Char) (i : Nat) : Option Nat := do
  let i ← mLit "setup".data cs i
  let i := mWs0 cs i
  mCls (· = '(') cs i

/-- `setup\s*:`. -/
def patSetupColon (cs : List Char) (i : Nat) : Option Nat :=
  patColon "setup" cs i

/-- `setup\s*\([^)]*\)`. -/
def patSetupArgs (cs : List Char) (i : Nat) : Option Nat := do
  let i ← patSetupParen cs i
  let i := mMany (· ≠ ')') cs i
  mCls (· = ')') cs i

/-- `import\s+use[A-Z]\w*\s+from`. -/
def patUseImport (cs : List Char) (i : Nat) : Option Nat := do
  let i ← mLit "import".data cs i
  let i ← mWs1 cs i
  let i ← mLit "use".data cs i
  let i ← mCls isUpper cs i
  let i := mMany isWordChar cs i
  let i ← mWs1 cs i
  mLit "from".data cs i

/-- The first `}` at or after `k`. -/
def firstBraceFrom (cs : List Char) (k : Nat) : Option Nat :=
  (List.range' k (cs.length - k)).find? fun p => cs.get? p = some (Char.ofNat 125)

/-- `import\s*{[^}]*\buse[A-Z]\w*\b[^}]*}` as a `.test`: some
`import\s*{` occurrence is followed, before the next `}` (which must
exist), by a `use<Capitalized>` token with a word boundary on its left
(its right boundary is automatic after the greedy `\w*`). -/
def testUseImportBrace (cs : List Char) : Bool :=
  (List.range (cs.length + 1)).any fun i =>
    match (do
        let j ← mLit "import".data cs i
        let j := mWs0 cs j
        mCls (· = Char.ofNat 123) cs j) with
    | none => false
    | some k =>
      match firstBraceFrom cs k with
      | none => false
      | some close =>
        (List.range' k (close - k)).any fun u =>
          (u = 0 || !(cs.get? (u - 1)).any isWordChar) &&
            (match (do let v ← mLit "use".data cs u; mCls isUpper cs v) with
             | some _ => true
             | none => false)

/-- `functional\s*:\s*true`. -/
def patFunctionalTrue (cs : List Char) (i : Nat) : Option Nat := do
  let i ← mLit "functional".data cs i
  let i := mWs0 cs i
  let i ← mCls (· = ':') cs i
  let i := mWs0 cs i
  mLit "true".data cs i

/-- `export\s+default\s+\(`. -/
def patExportDefaultParen (cs : List Char) (i : Nat) : Option Nat := do
  let i ← mLit "export".data cs i
  let i ← mWs1 cs i
  let i ← mLit "default".data cs i
  let i ← mWs1 cs i
  mCls (· = '(') cs i

/-- `export\s+default\s+function\s*\(`. -/
def patExportDefaultFunction (cs : List Char) (i : Nat) : Option Nat := do
  let i ← mLit "export".data cs i
  let i ← mWs1 cs i
  let i ← mLit "default".data cs i
  let i ← mWs1 cs i
  let i ← mLit "function".data cs i
  let i := mWs0 cs i
  mCls (· = '(') cs i

/-- `class\s+\w+\s+extends\s+(Vue|Component)`. -/
def patClassExtends (cs : List Char) (i : Nat) : Option Nat := do
  let i ← mLit "class".data cs i
  let i ← mWs1 cs i
  let i ← mMany1 isWordChar cs i
  let i ← mWs1 cs i
  let i ← mLit "extends".data cs i
  let i ← mWs1 cs i
  (mLit "Vue".data cs i).orElse fun _ => mLit "Component".data cs i

/-- `\[[^\]]+\]\s*\(\s*\)` (first alternative of the dynamic-property
pattern). -/
def patDynCall (cs : List Char) (i : Nat) : Option Nat := do
  let i ← mCls (· = '[') cs i
  let i ← mMany1 (· ≠ ']') cs i
  let i ← mCls (· = ']') cs i
  let i := mWs0 cs i
  let i ← mCls (· = '(') cs i
  let i := mWs0 cs i
  mCls (· = ')') cs i

/-- `{\s*\[[^\]]+\]\s*:` (second alternative). -/
def patDynBrace (cs : List Char) (i : Nat) : Option Nat := do
  let i ← mCls (· = Char.ofNat 123) cs i
  let i := mWs0 cs i
  let i ← mCls (· = '[') cs i
  let i ← mMany1 (· ≠ ']') cs i
  let i ← mCls (· = ']') cs i
  let i := mWs0 cs i
  mCls (· = ':') cs i

/-- `\[['"`]?(data|methods|computed|watch|methodName|computedName)['"`]?\]`:
the optional quotes backtrack, the keyword alternation is tried in
declared order. -/
def patDynKnownKey (cs : List Char) (i : Nat) : Option Nat := do
  let i ← mCls (· = '[') cs i
  let kws := ["data", "methods", "computed", "watch", "methodName", "computedName"]
  let tryFrom : Nat → Option Nat := fun p =>
    kws.findSome? fun kw => do
      let q ← mLit kw.data cs p
      (do
          let q2 ← mCls isAnyQuote cs q
          mCls (· = ']') cs q2).orElse
        fun _ => mCls (· = ']') cs q
  (do
      let p ← mCls isAnyQuote cs i
      tryFrom p).orElse
    fun _ => tryFrom i

/-- `` \[`[^`]*`\]\s*: `` (dynamic template-literal property). -/
def patDynTemplateKey (cs : List Char) (i : Nat) : Option Nat := do
  let i ← mCls (· = '[') cs i
  let i ← mCls (· = Char.ofNat 96) cs i
  let i := mMany (· ≠ Char.ofNat 96) cs i
  let i ← mCls (· = Char.ofNat 96) cs i
  let i ← mCls (· = ']') cs i
  let i := mWs0 cs i
  mCls (· = ':') cs i

/-- `render\s*\(\s*\)`. -/
def patRenderCall (cs : List Char) (i : Nat) : Option Nat :=
  patCall "render" cs i

/-- The tail `\s*from\s*["']vue["']` of the multi-line vue-import
pattern, starting just after a candidate closing brace. -/
def mVueTail (cs : List Char) (p : Nat) : Option Nat := do
  let k := mWs0 cs p
  let k ← mLit "from".data cs k
  let k := mWs0 cs k
  let k ← mCls isQuote cs k
  let k ← mLit "vue".data cs k
  mCls isQuote cs k

/-- The lazy `[\s\S]+?\}` step: the first `}` at or after `p` whose tail
matches, returning the overall match end. -/
def findLazyVueClose (cs : List Char) : Nat → Nat → Option Nat
  | 0, _ => none
  | fuel + 1, p =>
    match cs.get? p with
    | none => none
    | some c =>
      if c = Char.ofNat 125 then
        match mVueTail cs (p + 1) with
        | some e => some e
        | none => findLazyVueClose cs fuel (p + 1)
      else findLazyVueClose cs fuel (p + 1)

/-- `import\s*\{[\s\S]+?\}\s*from\s*["']vue["']`, yielding the matched
substring. -/
def matchVueImportBig (cs : List Char) (i : Nat) : Option (Nat × String) := do
  let j ← mLit "import".data cs i
  let j := mWs0 cs j
  let j ← mCls (· = Char.ofNat 123) cs j
  let e ← findLazyVueClose cs (cs.length + 1) (j + 1)
  return (e, sliceStr cs i e)

/-- The Options-API signal patterns (`optionsAPIPatterns`). -/
def optionsSignals (clean : String) : Bool :=
  testPat (patCall "data") clean ||
    [ "methods", "computed", "watch", "props", "emits", "inject", "mixins",
      "extends", "directives", "filters", "expose", "model", "inheritAttrs",
      "components" ].any (fun n => testPat (patColon n) clean) ||
    testPat patProvide clean ||
    [ "beforeCreate", "created", "beforeMount", "mounted", "beforeUpdate",
      "updated", "beforeUnmount", "unmounted", "beforeDestroy", "destroyed",
      "activated", "deactivated", "errorCaptured", "renderTracked",
      "renderTriggered", "serverPrefetch" ].any fun n => testPat (patCall n) clean

/-- The Composition-API signal patterns (`compositionPatterns`). -/
def compositionSignals (clean : String) : Bool :=
  strIncludes clean "defineComponent" ||
    testPat patSetupParen clean ||
    testPat patSetupColon clean ||
    testPat (patCall "setup") clean ||
    testPat patSetupArgs clean ||
    testUseImportBrace clean.data ||
    testPat patUseImport clean ||
    strIncludes clean "defineAsyncComponent"

/-- `detectScriptType` of `vue-parser.ts`, in source order: the
script-setup short-circuit, the raw multi-line vue-import fallback, the
cleaned-content signal collection, the functional/class short-circuits,
the dynamic-property refinement, and the mixed-signal tie-breaks. -/
def detectScriptType (content : String) (hasScriptSetup : Bool) : ScriptType :=
  if hasScriptSetup then .composition
  else
    let rawHit := (firstMatch matchVueImportBig content.data).map (·.2)
    let rawForced :=
      match rawHit with
      | some m =>
        if ["ref", "reactive", "computed", "watch", "h", "onMounted", "onUpdated"].any
            (fun api => strIncludes m api) then
          if testPat patRenderCall content then true
          else decide (10 < (splitChars ',' m.data).length)
        else false
      | none => false
    if rawForced then .composition
    else
      let clean := removeCommentsAndStrings content
      let vueImports := findAll matchVueImportBig clean.data
      let hasCompositionAPI := !vueImports.isEmpty || compositionSignals clean
      let hasOptionsAPI0 := optionsSignals clean
      if testPat patFunctionalTrue clean then .functional
      else if testPat patExportDefaultParen clean || testPat patExportDefaultFunction clean then
        .functional
      else if testPat patClassExtends clean || strIncludes clean "@Component" then .classStyle
      else
        let hasOptionsAPI :=
          if testPat patDynCall clean || testPat patDynBrace clean then
            hasOptionsAPI0 || testPat patDynKnownKey clean || testPat patDynTemplateKey clean
          else hasOptionsAPI0
        let hasDefineComponent := strIncludes clean "defineComponent"
        let hasSetupFunction := testPat patSetupParen clean || testPat patSetupColon clean
        let hasDefineAsyncComponent := strIncludes clean "defineAsyncComponent"
        if hasDefineComponent && hasSetupFunction then .composition
        else if hasCompositionAPI && hasOptionsAPI then
          if hasDefineAsyncComponent then .composition
          else if hasSetupFunction then
            let hasDataOrMethods :=
              testPat (patCall "data") clean || testPat (patColon "methods") clean ||
                testPat (patColon "computed") clean || testPat (patColon "watch") clean
            if !hasDataOrMethods then .composition else .mixed
          else if hasDefineComponent then .composition
          else .mixed
        else if hasCompositionAPI then .composition
        else if hasOptionsAPI then .options
        else .unknown

/-! ### The Vue parser (`vue-parser.ts`, `parseVue`) and file dispatch -/

/-- `descriptor.scriptSetup?.lang || descriptor.script?.lang` followed by
the normalization of `detectScriptLang` (JS `||`: an empty string falls
through; `!lang` also accepts the empty string). -/
def orFalsyStr (a b : Option String) : Option String :=
  match a with
  | some s => if s = "" then b else some s
  | none => b

def detectLangOfSfc (out : SfcOut) : ScriptLang :=
  match orFalsyStr (out.scriptSetup.bind (·.lang)) (out.script.bind (·.lang)) with
  | some l =>
    if l = "ts" || l = "typescript" then .ts
    else if l = "js" || l = "javascript" || l = "" then .js
    else .unknown
  | none => .js

/-- `descriptor.scriptSetup?.content || descriptor.script?.content || ''`. -/
def sfcScriptContent (out : SfcOut) : String :=
  let fromScript :=
    match out.script with
    | some s => s.content
    | none => ""
  match out.scriptSetup with
  | some b => if b.content = "" then fromScript else b.content
  | none => fromScript

/-- The catch-branch result of `parseVue` (read failure or SFC parse
errors): Vue components are still assumed to have a default export. -/
def vueFailResult (filePath : String) : ParseResult :=
  { type := .vue
    filePath := filePath
    scriptType := some .unknown
    scriptLang := .unknown
    imports := []
    exports := { hasDefault := true, named := [] }
    error := some "parse failure" }

/-- `parseVue`: read and SFC-split the file; without any script block
return the fixed no-script result; otherwise classify the preferred
script block and take imports and named exports from `parseScript`
applied to the same file (the whole raw content). -/
def parseVue (w : World) (filePath : String) : ParseResult :=
  match w.readFile filePath with
  | none => vueFailResult filePath
  | some content =>
    let out := w.sfc content
    if out.hasErrors then vueFailResult filePath
    else if out.script.isNone && out.scriptSetup.isNone then
      { type := .vue
        filePath := filePath
        scriptType := some .unknown
        scriptLang := .js
        imports := []
        exports := { hasDefault := true, named := [] } }
    else
      let st := detectScriptType (sfcScriptContent out) out.scriptSetup.isSome
      let sl := detectLangOfSfc out
      let tmp := parseScript w filePath
      { type := .vue
        filePath := filePath
        scriptType := some st
        scriptLang := sl
        imports := tmp.imports
        exports := { hasDefault := true, named := tmp.exports.named } }

/-- `parseFile` (`parser/index.ts`): dispatch on the `.vue` extension. -/
def parseFile (w : World) (filePath : String) : ParseResult :=
  if strEnds filePath ".vue" then parseVue w filePath else parseScript w filePath

/-! ### Dependency graph builder
(`packages/core/src/dependency/analyzer.ts`) -/

/-- The `dependencies` record of a node. -/
structure NodeDeps where
  imports : List String
  importedBy : List String
deriving DecidableEq

/-- `DependencyNode`. -/
structure DependencyNode where
  id : String
  relativePath : String
  type : FileType
  scriptType : Option ScriptType
  scriptLang : ScriptLang
  deps : NodeDeps
  exports : ExportInfo
deriving DecidableEq

/-- `DependencyEdge` (`fromPath`/`toPath` are the source's `from`/`to`;
both are Lean keywords). The `type` is always the literal `'import'`. -/
structure DependencyEdge where
  fromPath : String
  toPath : String
  type : String
deriving DecidableEq

/-- The graph under construction: `nodes` models the insertion-ordered
JS `Map`, `edges` models the JS `Set` — the source adds a freshly
allocated object literal each time, so the set grows by object identity
and a list of values is the faithful image. -/
structure DependencyGraph where
  nodes : List (String × DependencyNode)
  edges : List DependencyEdge
deriving DecidableEq

/-- `Map.prototype.set`: overwrite an existing key in place, else
append. -/
def mapSet (m : List (String × DependencyNode)) (k : String) (v : DependencyNode) :
    List (String × DependencyNode) :=
  if m.any (fun e => e.1 = k) then
    m.map fun e => if e.1 = k then (k, v) else e
  else m ++ [(k, v)]

/-- `Map.prototype.get`. -/
def mapGet (m : List (String × DependencyNode)) (k : String) : Option DependencyNode :=
  (m.find? (fun e => e.1 = k)).map (·.2)

/-- `DependencyAnalyzer.analyzeFile`: parse, drop errored results, build
the node with verbatim import specifiers and an empty `importedBy`. -/
def analyzeFile (w : World) (rootDir filePath : String) : Option DependencyNode :=
  let pr := parseFile w filePath
  if pr.error.isSome then none
  else
    some
      { id := pr.filePath
        relativePath := pathRelative rootDir pr.filePath
        type := pr.type
        scriptType := pr.scriptType
        scriptLang := pr.scriptLang
        deps := { imports := pr.imports.map (·.source), importedBy := [] }
        exports := pr.exports }

/-- Step 1 of `analyze`: the node map. -/
def nodesPhase (w : World) (rootDir : String) (files : List String) :
    List (String × DependencyNode) :=
  files.foldl
    (fun m file =>
      match analyzeFile w rootDir file with
      | some node => mapSet m file node
      | none => m)
    []

/-- `targetNode.dependencies.importedBy.push(filePath)` on one node. -/
def addImporter (n : DependencyNode) (fromPath : String) : DependencyNode :=
  { n with deps := { n.deps with importedBy := n.deps.importedBy ++ [fromPath] } }

/-- Append `fromPath` to the `importedBy` of the node stored under key
`target` (the in-place push of the source). -/
def pushImportedBy (m : List (String × DependencyNode)) (target fromPath : String) :
    List (String × DependencyNode) :=
  m.map fun e => if e.1 = target then (e.1, addImporter e.2 fromPath) else e

/-- One iteration of the edge loop of `analyze`, for the pair
`(filePath, importPath)`: on resolution success add the edge and, when
the target is an included node, push the reverse dependency. -/
def edgeStep (resolver : String → String → Option String) (g : DependencyGraph)
    (act : String × String) : DependencyGraph :=
  match resolver act.2 act.1 with
  | some r =>
    { nodes :=
        if (g.nodes.any fun e => e.1 = r) then pushImportedBy g.nodes r act.1 else g.nodes
      edges := g.edges ++ [{ fromPath := act.1, toPath := r, type := "import" }] }
  | none => g

/-- The `(filePath, importPath)` pairs the edge loop iterates over, in
iteration order. The loop never changes the key set or any `imports`
list (only `importedBy` is pushed), so the iteration sequence is fixed
by the step-1 node map. -/
def edgeActions (nodes : List (String × DependencyNode)) : List (String × String) :=
  nodes.flatMap fun e => e.2.deps.imports.map fun imp => (e.1, imp)

/-- The resolver function the analyzer constructs from its options. -/
def analyzerResolver (w : World) (o : PathResolverOptions) :
    String → String → Option String :=
  fun importPath fromFile =>
    (PathResolver.resolve w (PathResolver.ofOptions o) importPath fromFile).resolvedPath

/-- The state of `analyze` after the node phase and the first `k`
iterations of the edge loop. -/
def partialGraph (w : World) (o : PathResolverOptions) (files : List String) (k : Nat) :
    DependencyGraph :=
  let nodes := nodesPhase w o.rootDir files
  ((edgeActions nodes).take k).foldl (edgeStep (analyzerResolver w o)) { nodes := nodes, edges := [] }

/-- `DependencyAnalyzer.analyze`: the graph replacing the held one. -/
def analyzeGraph (w : World) (o : PathResolverOptions) (files : List String) :
    DependencyGraph :=
  let nodes := nodesPhase w o.rootDir files
  (edgeActions nodes).foldl (edgeStep (analyzerResolver w o)) { nodes := nodes, edges := [] }

/-- The analyzer instance state: the held graph, replaced wholesale by
each `analyze` call (which never reads it). -/
def analyzeReplacing (w : World) (o : PathResolverOptions) (_held : DependencyGraph)
    (files : List String) : DependencyGraph :=
  analyzeGraph w o files

/-! ### Cycle detector (`packages/cli/src/commands/stats.ts`,
`findCircularDependencies`) -/

/-- The DFS bookkeeping: found cycles, the `visited` set and the
`recursionStack` set (both insertion-ordered lists of distinct keys). -/
structure CycState where
  cycles : List (List String)
  visited : List String
  stack : List String
deriving DecidableEq

/-- The node lookup of the detector:
`Array.from(graph.entries()).find(([_, n]) => n.relativePath === dep || n.id.endsWith(dep))`. -/
def findDepNode (g : List (String × DependencyNode)) (dep : String) :
    Option (String × DependencyNode) :=
  g.find? fun e => e.2.relativePath = dep || strEnds e.2.id dep

/-- The recursive `dfs` of `findCircularDependencies`. Fuel bounds the
recursion depth; it only recurses into unvisited nodes, so
`g.length + 1` is enough. -/
def dfsCycles (g : List (String × DependencyNode)) :
    Nat → String → List String → CycState → CycState
  | 0, _, _, st => st
  | fuel + 1, node, path, st₀ =>
    let st := { st₀ with visited := st₀.visited ++ [node], stack := st₀.stack ++ [node] }
    let st :=
      match mapGet g node with
      | none => st
      | some nd =>
        nd.deps.imports.foldl
          (fun st dep =>
            match findDepNode g dep with
            | none => st
            | some hit =>
              let depPath := hit.1
              if !st.visited.contains depPath then
                dfsCycles g fuel depPath (path ++ [depPath]) st
              else if st.stack.contains depPath then
                match path.indexOf? depPath with
                | some cycleStart =>
                  { st with cycles := st.cycles ++ [path.drop cycleStart ++ [depPath]] }
                | none => st
              else st)
          st
    { st with stack := st.stack.filter (· ≠ node) }

/-- `findCircularDependencies`. -/
def findCircularDependencies (g : List (String × DependencyNode)) : List (List String) :=
  (g.foldl
      (fun (st : CycState) (e : String × DependencyNode) =>
        if st.visited.contains e.1 then st
        else dfsCycles g (g.length + 1) e.1 [e.1] st)
      { cycles := [], visited := [], stack := [] }).cycles

/-! ### Concrete worlds used by witnesses and counterexamples -/

/-- An SFC splitter result representing parse errors, for worlds whose
scenarios never reach the splitter. -/
def sfcNever : String → SfcOut :=
  fun _ => { hasErrors := true, script := none, scriptSetup := none }

/-- A world in which `/p/A.ts` resolves two different specifiers to the
same target `/p/B.ts`. -/
def wDup : World :=
  { files :=
      [ ("/p/A.ts", "import X from \"./B\"\nimport Y from \"./B.ts\"")
      , ("/p/B.ts", "export const b = 1") ]
    dirs := ["/p"]
    pkgMain := []
    sfc := sfcNever }

def optsP : PathResolverOptions := { rootDir := "/p" }

/-- A world with `/p/B.ts` existing on disk; analyses that omit it from
the input file list keep it out of the node map. -/
def wExt : World :=
  { files :=
      [ ("/p/A.ts", "import X from \"./B\"")
      , ("/p/B.ts", "export const b = 1") ]
    dirs := ["/p"]
    pkgMain := []
    sfc := sfcNever }

/-- An empty filesystem: every read fails. -/
def wNone : World := { files := [], dirs := [], pkgMain := [], sfc := sfcNever }

/-- A file whose named import textually precedes its default import. -/
def ordContent : String := "import \x7ba\x7d from \"x\"\nimport D from \"y\""

def wOrd : World :=
  { files := [("/p/m.ts", ordContent)], dirs := ["/p"], pkgMain := [], sfc := sfcNever }


/-- A world with a script-setup component whose block content carries an
Options-API-shaped body, exercising the unconditional short-circuit. -/
def wSetup : World :=
  { files := [("/p/App.vue", "<script setup>const data = () => 0</script>")]
    dirs := ["/p"]
    pkgMain := []
    sfc := fun _ =>
      { hasErrors := false
        script := none
        scriptSetup := some { content := "const data = () => 0", lang := some "ts" } } }

/-- A Vue file whose only import-shaped text sits in the template, not
in the script block the splitter reports. -/
def wTpl : World :=
  { files :=
      [("/p/App.vue",
        "<template>import T from \"tpl\"</template><script>export default \x7b\x7d</script>")]
    dirs := ["/p"]
    pkgMain := []
    sfc := fun _ =>
      { hasErrors := false
        script := some { content := "export default \x7b\x7d", lang := none }
        scriptSetup := none } }

/-- A world in which the alias target of `lib/*` exists. -/
def wAliasA : World :=
  { files := [("/r/src/foo.ts", "")], dirs := ["/r", "/r/src"], pkgMain := [], sfc := sfcNever }

def rAliasA : PathResolver :=
  PathResolver.ofOptions { rootDir := "/r", paths := [("lib/*", ["src/*"])] }

/-- A world in which the baseUrl fallback of a missed `@/*` alias would
succeed. -/
def wAliasB : World :=
  { files := [("/r/@/file.ts", "")], dirs := ["/r", "/r/@"], pkgMain := [], sfc := sfcNever }

def rAliasB : PathResolver :=
  PathResolver.ofOptions
    { rootDir := "/r", paths := [("@/*", ["pkg/*"])], resolveNodeModules := some false }

/-- The invariant of the edge loop: for every stored node `b`, the
structural edge `(a, b, 'import')` is present exactly when `a` is among
`b`'s reverse dependencies. -/
def EdgeInv (g : DependencyGraph) : Prop :=
  ∀ a b n, mapGet g.nodes b = some n →
    (({ fromPath := a, toPath := b, type := "import" } : DependencyEdge) ∈ g.edges ↔
      a ∈ n.deps.importedBy)

/-- The node stored for `/p/B.ts` after analyzing both files of `wExt`. -/
def nodeBExt : DependencyNode :=
  { id := "/p/B.ts"
    relativePath := "B.ts"
    type := .script
    scriptType := none
    scriptLang := .ts
    deps := { imports := [], importedBy := ["/p/A.ts"] }
    exports := { hasDefault := false, named := ["b"] } }

/-- The raw contents of two Vue files that mutually import each other
through plain `./`-relative specifiers. -/
def aRawCyc : String := "<script>import B from \"./B.vue\"</script>"

def bRawCyc : String := "<script>import A from \"./A.vue\"</script>"

/-- The world holding those two files, with the SFC splitter returning
each file's script block. -/
def wCyc : World :=
  { files := [("/p/A.vue", aRawCyc), ("/p/B.vue", bRawCyc)]
    dirs := ["/p"]
    pkgMain := []
    sfc := fun c =>
      if c = aRawCyc then
        { hasErrors := false
          script := some { content := "import B from \"./B.vue\"", lang := none }
          scriptSetup := none }
      else if c = bRawCyc then
        { hasErrors := false
          script := some { content := "import A from \"./A.vue\"", lang := none }
          scriptSetup := none }
      else { hasErrors := true, script := none, scriptSetup := none } }

/-- Mutually importing nodes whose specifiers suffix-match the partner
ids. -/
def cycNodeA : DependencyNode :=
  { id := "/p/A.vue"
    relativePath := "A.vue"
    type := .vue
    scriptType := some .composition
    scriptLang := .ts
    deps := { imports := ["B.vue"], importedBy := [] }
    exports := { hasDefault := true, named := [] } }

def cycNodeB : DependencyNode :=
  { id := "/p/B.vue"
    relativePath := "B.vue"
    type := .vue
    scriptType := some .composition
    scriptLang := .ts
    deps := { imports := ["A.vue"], importedBy := [] }
    exports := { hasDefault := true, named := [] } }

/-! ### C3 — structural deduplication of the edge collection -/

/-- C3, code_bug: the spec requires the edge collection to deduplicate
by structural `(from,to,type)` value, but the source's `Set` of freshly
allocated edge objects compares by reference. At the failing input —
one node resolving the specifiers `./B` and `./B.ts` to the same target
— the produced graph holds two structurally identical edges. -/
theorem duplicate_edges_at_failing_input :
    (analyzeGraph wDup optsP ["/p/A.ts", "/p/B.ts"]).edges =
        [ { fromPath := "/p/A.ts", toPath := "/p/B.ts", type := "import" }
        , { fromPath := "/p/A.ts", toPath := "/p/B.ts", type := "import" } ] ∧
      ¬ (analyzeGraph wDup optsP ["/p/A.ts", "/p/B.ts"]).edges.Nodup := by
  constructor
  · decide
  · decide

/-! ### C2 — edges to targets outside the node map -/

/-- C2, counterexample: analyzing only `/p/A.ts` while `./B` resolves to
the on-disk but not-included `/p/B.ts` produces an edge whose target is
not a key of the node map, contradicting the claim that no edge is
recorded when the resolved path is not among the included nodes. -/
theorem external_target_edge_recorded :
    analyzerResolver wExt optsP "./B" "/p/A.ts" = some "/p/B.ts" ∧
      mapGet (analyzeGraph wExt optsP ["/p/A.ts"]).nodes "/p/B.ts" = none ∧
      ({ fromPath := "/p/A.ts", toPath := "/p/B.ts", type := "import" } : DependencyEdge) ∈
        (analyzeGraph wExt optsP ["/p/A.ts"]).edges := by
  refine ⟨by decide, by decide, by decide⟩

/-- The edge collection accumulated by the edge loop is exactly the
image of the successful resolutions. -/
theorem foldl_edgeStep_edges (resolver : String → String → Option String)
    (acts : List (String × String)) (g : DependencyGraph) :
    (acts.foldl (edgeStep resolver) g).edges =
      g.edges ++
        acts.filterMap fun a =>
          (resolver a.2 a.1).map fun rp =>
            { fromPath := a.1, toPath := rp, type := "import" } := by
  induction acts generalizing g with
  | nil => simp
  | cons hd tl ih =>
    simp only [List.foldl_cons, List.filterMap_cons]
    cases hres : resolver hd.2 hd.1 with
    | none =>
      have hstep : edgeStep resolver g hd = g := by
        simp [edgeStep, hres]
      rw [hstep, ih]
      simp
    | some rp =>
      have hstep :
          (edgeStep resolver g hd).edges =
            g.edges ++ [{ fromPath := hd.1, toPath := rp, type := "import" }] := by
        simp [edgeStep, hres]
      rw [ih, hstep]
      simp

/-- C2, amended: an edge is recorded for a `(file, specifier)` iteration
exactly when the resolver succeeds on it — resolution failure omits the
edge, and a successful resolution records the edge even when the target
is not among the included nodes. -/
theorem edges_are_successful_resolutions (w : World) (o : PathResolverOptions)
    (files : List String) :
    (analyzeGraph w o files).edges =
      (edgeActions (nodesPhase w o.rootDir files)).filterMap fun a =>
        (analyzerResolver w o a.2 a.1).map fun rp =>
          { fromPath := a.1, toPath := rp, type := "import" } := by
  have h := foldl_edgeStep_edges (analyzerResolver w o)
    (edgeActions (nodesPhase w o.rootDir files))
    { nodes := nodesPhase w o.rootDir files, edges := [] }
  simpa [analyzeGraph] using h

/-! ### C9 — idempotence of `analyze` -/

/-- C9, confirmed: `analyze` replaces the held graph without reading it,
so a second call over the same file list and world yields a graph with
the same node id list and the same edge list. -/
theorem analyze_idempotent (w : World) (o : PathResolverOptions)
    (held : DependencyGraph) (files : List String) :
    ((analyzeReplacing w o (analyzeReplacing w o held files) files).nodes.map (·.1) =
        (analyzeReplacing w o held files).nodes.map (·.1)) ∧
      (analyzeReplacing w o (analyzeReplacing w o held files) files).edges =
        (analyzeReplacing w o held files).edges := by
  exact ⟨rfl, rfl⟩

/-! ### C5 — parse results on read failure -/

/-- C5, counterexample: on a read failure of a `.vue` path, `parseFile`
returns `exports.hasDefault = true` (Vue components are always assumed
to default-export) and `scriptLang = unknown`, not the claimed
`{hasDefault:false, named:[]}`. -/
theorem vue_read_failure_hasDefault_true :
    (parseFile wNone "/p/App.vue").error.isSome = true ∧
      (parseFile wNone "/p/App.vue").exports.hasDefault = true ∧
      (parseFile wNone "/p/App.vue").scriptLang = ScriptLang.unknown := by
  refine ⟨by decide, by decide, by decide⟩

/-- C5, amended: on read failure `parseFile` returns normally with an
empty import list and a populated error; script/definition paths keep
the extension-derived language and `{hasDefault:false, named:[]}`,
while `.vue` paths return `{hasDefault:true, named:[]}` and
`scriptLang = unknown`. -/
theorem read_failure_result_fields (w : World) (p : String)
    (h : w.readFile p = none) :
    (parseFile w p).error.isSome = true ∧
      (parseFile w p).imports = [] ∧
      (if strEnds p ".vue" then
        (parseFile w p).exports = { hasDefault := true, named := [] } ∧
          (parseFile w p).scriptLang = ScriptLang.unknown
      else
        (parseFile w p).exports = { hasDefault := false, named := [] } ∧
          (parseFile w p).scriptLang = detectLangOfExt p) := by
  by_cases hv : strEnds p ".vue" = true
  · simp [parseFile, parseVue, parseScript, vueFailResult, h, hv]
  · simp only [Bool.not_eq_true] at hv
    simp [parseFile, parseVue, parseScript, vueFailResult, h, hv]

/-- Witness for the amended C5 statement at a concrete unreadable
script path. -/
theorem read_failure_result_fields_witness :
    (parseFile wNone "/p/A.ts").error.isSome = true ∧
      (parseFile wNone "/p/A.ts").imports = [] ∧
      (if strEnds "/p/A.ts" ".vue" then
        (parseFile wNone "/p/A.ts").exports = { hasDefault := true, named := [] } ∧
          (parseFile wNone "/p/A.ts").scriptLang = ScriptLang.unknown
      else
        (parseFile wNone "/p/A.ts").exports = { hasDefault := false, named := [] } ∧
          (parseFile wNone "/p/A.ts").scriptLang = detectLangOfExt "/p/A.ts") :=
  read_failure_result_fields wNone "/p/A.ts" (by decide)

/-! ### C6 — textual order of extracted imports -/

/-- C6, counterexample: in `ordContent` the named import of `"x"` starts
at index 0 and the default import of `"y"` at index 20, yet the
extracted list places the default import first — the scan passes are
grouped by import kind. -/
theorem import_order_groups_by_kind :
    ((findAllPos matchImportNamed ordContent.data).map (·.1) = [0]) ∧
      ((findAllPos matchImportDefault ordContent.data).map (·.1) = [20]) ∧
      ((parseScript wOrd "/p/m.ts").imports.map (·.source) = ["y", "x"]) := by
  refine ⟨by decide, by decide, by decide⟩

/-! ### C8 — script-setup always classifies as composition -/

/-- C8, confirmed: whenever the SFC splitter reports a script-setup
block, whatever its content, `parseVue` classifies the component as
`composition` — the short-circuit at the top of `detectScriptType`. -/
theorem script_setup_always_composition (w : World) (p c : String) (blk : SfcBlock)
    (hread : w.readFile p = some c)
    (herr : (w.sfc c).hasErrors = false)
    (hsetup : (w.sfc c).scriptSetup = some blk) :
    (parseVue w p).scriptType = some ScriptType.composition := by
  simp [parseVue, hread, herr, hsetup, detectScriptType]



/-- Witness for C8 at a concrete script-setup file. -/
theorem script_setup_always_composition_witness :
    (parseVue wSetup "/p/App.vue").scriptType = some ScriptType.composition :=
  script_setup_always_composition wSetup "/p/App.vue"
    "<script setup>const data = () => 0</script>"
    { content := "const data = () => 0", lang := some "ts" }
    (by decide) (by decide) (by decide)

/-! ### C10 — Vue imports come from the whole raw content -/

/-- C10, confirmed: for a readable, SFC-parsable Vue file with a script
or script-setup block, the imports and named exports of its
`ParseResult` are the ordinary script extraction applied to the entire
raw file content (`parseScript` re-reads the same file), not to the
preferred script block. -/
theorem vue_imports_from_whole_content (w : World) (p c : String)
    (hread : w.readFile p = some c)
    (herr : (w.sfc c).hasErrors = false)
    (hblk : (w.sfc c).script.isSome ∨ (w.sfc c).scriptSetup.isSome) :
    (parseVue w p).imports = extractImports c ∧
      (parseVue w p).exports.named = (extractExports c).named := by
  have hcond : ((w.sfc c).script.isNone && (w.sfc c).scriptSetup.isNone) = false := by
    rcases hblk with h | h <;> cases hs : (w.sfc c).script <;>
      cases ht : (w.sfc c).scriptSetup <;> simp_all
  simp [parseVue, parseScript, hread, herr, hcond]



/-- Witness for C10: the template's import-shaped text contributes an
`ImportStatement` even though the script block holds none. -/
theorem vue_imports_from_whole_content_witness :
    ((parseVue wTpl "/p/App.vue").imports =
        extractImports
          "<template>import T from \"tpl\"</template><script>export default \x7b\x7d</script>" ∧
      (parseVue wTpl "/p/App.vue").exports.named =
        (extractExports
          "<template>import T from \"tpl\"</template><script>export default \x7b\x7d</script>").named) ∧
      (parseVue wTpl "/p/App.vue").imports.map (·.source) = ["tpl"] :=
  ⟨vue_imports_from_whole_content wTpl "/p/App.vue"
      "<template>import T from \"tpl\"</template><script>export default \x7b\x7d</script>"
      (by decide) (by decide) (Or.inl (by decide)),
    by decide⟩

/-! ### C7 — ordering of the alias step inside `resolve` -/





/-- C7, counterexample, two concrete refutations: (i) the specifier
`lib/foo` matches the configured alias `lib/*` and the alias target
exists, yet `resolve` fails — alias resolution is only attempted for
`@`/`#` specifiers; (ii) with `resolveNodeModules = false`, the missed
alias `@/file` fails with the disabled-resolution error even though the
baseUrl fallback would succeed — resolution does not fall back. -/
theorem alias_fallback_counterexamples :
    (PathResolver.resolve wAliasA rAliasA "lib/foo" "/r/main.ts" =
        rErr "File does not exist: /r/lib/foo" ∧
      resolveAliasPath wAliasA rAliasA "lib/foo" = rOk "/r/src/foo.ts") ∧
      (PathResolver.resolve wAliasB rAliasB "@/file" "/r/main.ts" =
          rErr "node_modules resolution is disabled" ∧
        resolveRelativePath wAliasB rAliasB "@/file" "/r/main.ts" = rOk "/r/@/file.ts") := by
  refine ⟨⟨by decide, by decide⟩, by decide, by decide⟩

/-- C7, amended: for a specifier starting with `@` or `#`, `resolve`
attempts the alias step before the `node_modules`/baseUrl fallbacks; a
successful alias probe is returned as is; when every alias target fails
to probe, resolution falls through to the `node_modules` step when that
is enabled (and then to baseUrl-relative resolution), but fails with
the disabled-resolution error when it is not. -/
theorem alias_step_ordering (w : World) (r : PathResolver) (imp f : String)
    (htrig : strStarts imp "@" = true ∨ strStarts imp "#" = true) :
    PathResolver.resolve w r imp f =
      match (resolveAliasPath w r imp).resolvedPath with
      | some _ => resolveAliasPath w r imp
      | none =>
        if !r.resolveNodeModules then rErr "node_modules resolution is disabled"
        else
          match (resolveNodeModule w r imp f).resolvedPath with
          | some _ => resolveNodeModule w r imp f
          | none => resolveRelativePath w r imp f := by
  obtain ⟨c, rest, hdata, hc⟩ :
      ∃ c rest, imp.data = c :: rest ∧ (c = '@' ∨ c = '#') := by
    rcases htrig with h | h <;>
    · unfold strStarts at h
      rw [decide_eq_true_iff] at h
      cases hd : imp.data with
      | nil => rw [hd] at h; simp at h
      | cons c rest =>
        rw [hd] at h
        simp only [List.take_cons, List.take_zero] at h
        exact ⟨c, rest, rfl, by simp_all⟩
  have hne : imp ≠ "" := by
    intro h
    rw [h] at hdata
    simp at hdata
  have habs : pathIsAbs imp = false := by
    unfold pathIsAbs strStarts
    rw [decide_eq_false_iff_not]
    rw [hdata]
    rcases hc with h | h <;> simp [h]
  have hdot : strStarts imp "." = false := by
    unfold strStarts
    rw [decide_eq_false_iff_not]
    rw [hdata]
    rcases hc with h | h <;> simp [h]
  have htrig' : (strStarts imp "@" || strStarts imp "#") = true := by
    rcases htrig with h | h <;> simp [h]
  unfold PathResolver.resolve
  rw [if_neg hne, if_neg (by simp [habs]), htrig']
  simp only [Bool.true_eq, if_true]
  cases hali : (resolveAliasPath w r imp).resolvedPath with
  | some p => simp [hali]
  | none => simp [hali, hdot]

/-- Witness for the amended C7 statement: an `@`-specifier whose alias
misses under disabled `node_modules` resolution hits the disabled
error. -/
theorem alias_step_ordering_witness :
    PathResolver.resolve wAliasB rAliasB "@/file" "/r/main.ts" =
      match (resolveAliasPath wAliasB rAliasB "@/file").resolvedPath with
      | some _ => resolveAliasPath wAliasB rAliasB "@/file"
      | none =>
        if !rAliasB.resolveNodeModules then rErr "node_modules resolution is disabled"
        else
          match (resolveNodeModule wAliasB rAliasB "@/file" "/r/main.ts").resolvedPath with
          | some _ => resolveNodeModule wAliasB rAliasB "@/file" "/r/main.ts"
          | none => resolveRelativePath wAliasB rAliasB "@/file" "/r/main.ts" :=
  alias_step_ordering wAliasB rAliasB "@/file" "/r/main.ts" (Or.inl (by decide))

/-! ### C6 amended — order within each scan pass -/

/-- Every match recorded by a scan starting at `i` starts at or after
`i`. -/
theorem findAllA_start_ge {α : Type} (m : List Char → Nat → Option (Nat × α))
    (cs : List Char) :
    ∀ fuel i, ∀ p ∈ findAllA m cs fuel i, i ≤ p.1 := by
  intro fuel
  induction fuel with
  | zero => intro i p hp; simp [findAllA] at hp
  | succ f ih =>
    intro i p hp
    unfold findAllA at hp
    by_cases hlt : i < cs.length
    · rw [if_pos hlt] at hp
      cases hm : m cs i with
      | none =>
        rw [hm] at hp
        exact Nat.le_of_succ_le (ih (i + 1) p hp)
      | some ja =>
        rw [hm] at hp
        rcases List.mem_cons.mp hp with h | h
        · rw [h]
        · have h1 := ih _ p h
          have h2 : i + 1 ≤ max ja.1 (i + 1) := Nat.le_max_right _ _
          omega
    · rw [if_neg hlt] at hp
      simp at hp

/-- The start positions recorded by one scan pass are strictly
increasing: within one import kind, list order is textual order. -/
theorem findAllA_chain {α : Type} (m : List Char → Nat → Option (Nat × α))
    (cs : List Char) :
    ∀ fuel i, List.Chain' (· < ·) ((findAllA m cs fuel i).map (·.1)) := by
  intro fuel
  induction fuel with
  | zero => intro i; simp [findAllA]
  | succ f ih =>
    intro i
    unfold findAllA
    by_cases hlt : i < cs.length
    · rw [if_pos hlt]
      cases hm : m cs i with
      | none => exact ih (i + 1)
      | some ja =>
        simp only [List.map_cons]
        refine List.Chain'.cons' (ih _) ?_
        intro y hy
        have hmem : ∃ q ∈ findAllA m cs f (max ja.1 (i + 1)), q.1 = y := by
          cases hrest : findAllA m cs f (max ja.1 (i + 1)) with
          | nil => rw [hrest] at hy; simp at hy
          | cons q qs =>
            rw [hrest] at hy
            simp only [List.map_cons, List.head?_cons, Option.mem_def,
              Option.some.injEq] at hy
            exact ⟨q, hrest ▸ List.mem_cons_self q qs, hy⟩
        obtain ⟨q, hq, hqy⟩ := hmem
        have := findAllA_start_ge m cs f (max ja.1 (i + 1)) q hq
        have h2 : i + 1 ≤ max ja.1 (i + 1) := Nat.le_max_right _ _
        omega
    · rw [if_neg hlt]
      simp

/-- C6, amended: the import list of a readable file is the concatenation
of the four scan passes in their source order — all default imports,
then all named, then all combined default+named, then all side-effect
imports — and within each pass the match start positions strictly
increase, i.e. each group preserves textual order. -/
theorem imports_grouped_by_kind (w : World) (p c : String)
    (h : w.readFile p = some c) :
    (parseScript w p).imports =
        findAll matchImportDefault c.data ++ findAll matchImportNamed c.data ++
          findAll matchImportMixed c.data ++ findAll matchImportSide c.data ∧
      List.Chain' (· < ·) ((findAllPos matchImportDefault c.data).map (·.1)) ∧
      List.Chain' (· < ·) ((findAllPos matchImportNamed c.data).map (·.1)) ∧
      List.Chain' (· < ·) ((findAllPos matchImportMixed c.data).map (·.1)) ∧
      List.Chain' (· < ·) ((findAllPos matchImportSide c.data).map (·.1)) := by
  refine ⟨by simp [parseScript, h, extractImports], ?_, ?_, ?_, ?_⟩ <;>
    exact findAllA_chain _ _ _ _

/-- Witness for the amended C6 statement at the concrete two-import
file. -/
theorem imports_grouped_by_kind_witness :
    (parseScript wOrd "/p/m.ts").imports =
        findAll matchImportDefault ordContent.data ++
          findAll matchImportNamed ordContent.data ++
          findAll matchImportMixed ordContent.data ++
          findAll matchImportSide ordContent.data ∧
      List.Chain' (· < ·) ((findAllPos matchImportDefault ordContent.data).map (·.1)) ∧
      List.Chain' (· < ·) ((findAllPos matchImportNamed ordContent.data).map (·.1)) ∧
      List.Chain' (· < ·) ((findAllPos matchImportMixed ordContent.data).map (·.1)) ∧
      List.Chain' (· < ·) ((findAllPos matchImportSide ordContent.data).map (·.1)) :=
  imports_grouped_by_kind wOrd "/p/m.ts" ordContent (by decide)

/-! ### C1 — bidirectional edge/importedBy consistency -/

/-- `mapGet` through a key-preserving value map. -/
theorem mapGet_mapVal (vf : String → DependencyNode → DependencyNode)
    (m : List (String × DependencyNode)) (b : String) :
    mapGet (m.map fun e => (e.1, vf e.1 e.2)) b = (mapGet m b).map (vf b) := by
  induction m with
  | nil => rfl
  | cons e es ih =>
    by_cases hb : e.1 = b
    · subst hb
      simp [mapGet, List.find?]
    · simp only [List.map_cons]
      simp [mapGet, List.find?, hb] at ih ⊢
      simpa [mapGet] using ih

/-- `pushImportedBy` as a key-preserving value map. -/
theorem pushImportedBy_eq_mapVal (m : List (String × DependencyNode)) (t f : String) :
    pushImportedBy m t f =
      m.map fun e => (e.1, if e.1 = t then addImporter e.2 f else e.2) := by
  unfold pushImportedBy
  refine List.map_congr_left ?_
  intro e _
  by_cases he : e.1 = t <;> simp [he]

/-- `mapGet` through a `pushImportedBy` targeting a different key. -/
theorem mapGet_push_ne (m : List (String × DependencyNode)) (t f b : String)
    (h : b ≠ t) : mapGet (pushImportedBy m t f) b = mapGet m b := by
  rw [pushImportedBy_eq_mapVal,
    mapGet_mapVal (fun k n => if k = t then addImporter n f else n) m b]
  cases hg : mapGet m b <;> simp [h]

/-- `mapGet` at the pushed key: the stored node gains the importer. -/
theorem mapGet_push_eq (m : List (String × DependencyNode)) (t f : String) :
    mapGet (pushImportedBy m t f) t =
      (mapGet m t).map fun n => addImporter n f := by
  rw [pushImportedBy_eq_mapVal,
    mapGet_mapVal (fun k n => if k = t then addImporter n f else n) m t]
  cases hg : mapGet m t <;> simp

/-- A key with no entry yields no node. -/
theorem mapGet_none_of_not_any (m : List (String × DependencyNode)) (k : String)
    (h : (m.any fun e => e.1 = k) = false) : mapGet m k = none := by
  induction m with
  | nil => rfl
  | cons e es ih =>
    simp only [List.any_cons, Bool.or_eq_false_iff] at h
    have he : e.1 ≠ k := by simpa using h.1
    simp [mapGet, List.find?, he]
    simpa [mapGet] using ih h.2



/-- Each iteration of the edge loop preserves the invariant: the edge
and the reverse dependency are added together. -/
theorem edgeStep_inv (resolver : String → String → Option String) (g : DependencyGraph)
    (act : String × String) (h : EdgeInv g) : EdgeInv (edgeStep resolver g act) := by
  unfold edgeStep
  cases hres : resolver act.2 act.1 with
  | none => exact h
  | some r =>
    by_cases hin : (g.nodes.any fun e => e.1 = r) = true
    · simp only [hin, if_true]
      intro a b n hget
      by_cases hb : b = r
      · subst hb
        rw [mapGet_push_eq] at hget
        cases hg : mapGet g.nodes b with
        | none => rw [hg] at hget; simp at hget
        | some n0 =>
          rw [hg] at hget
          simp only [Option.map_some', Option.some.injEq] at hget
          have hiff := h a b n0 hg
          subst hget
          simp only [addImporter, List.mem_append, List.mem_singleton, hiff,
            DependencyEdge.mk.injEq, and_true]
      · rw [mapGet_push_ne _ _ _ _ hb] at hget
        have hiff := h a b n hget
        have hnew : ({ fromPath := a, toPath := b, type := "import" } : DependencyEdge) ≠
            { fromPath := act.1, toPath := r, type := "import" } := fun hx =>
          hb (congrArg DependencyEdge.toPath hx)
        rw [List.mem_append, List.mem_singleton]
        simp [hnew, hiff]
    · simp only [if_neg hin]
      intro a b n hget
      have hanyf : (g.nodes.any fun e => e.1 = r) = false := by
        cases hx : g.nodes.any fun e => e.1 = r
        · rfl
        · exact absurd hx hin
      have hbr : b ≠ r := by
        intro hx
        rw [hx, mapGet_none_of_not_any _ _ hanyf] at hget
        exact Option.noConfusion hget
      have hiff := h a b n hget
      have hnew : ({ fromPath := a, toPath := b, type := "import" } : DependencyEdge) ≠
          { fromPath := act.1, toPath := r, type := "import" } := fun hx =>
        hbr (congrArg DependencyEdge.toPath hx)
      rw [List.mem_append, List.mem_singleton]
      simp [hnew, hiff]

/-- The whole edge loop preserves the invariant. -/
theorem foldl_edgeStep_inv (resolver : String → String → Option String) :
    ∀ (acts : List (String × String)) (g : DependencyGraph),
      EdgeInv g → EdgeInv (acts.foldl (edgeStep resolver) g) := by
  intro acts
  induction acts with
  | nil => intro g h; exact h
  | cons hd tl ih => intro g h; exact ih _ (edgeStep_inv resolver g hd h)

/-- The key-membership test agrees with lookup success. -/
theorem mapGet_isSome_eq_any (m : List (String × DependencyNode)) (k : String) :
    (mapGet m k).isSome = m.any fun e => e.1 = k := by
  induction m with
  | nil => rfl
  | cons e es ih =>
    by_cases he : e.1 = k
    · simp [mapGet, List.find?, he]
    · simp [mapGet, List.find?, he] at ih ⊢
      simpa [mapGet] using ih

/-- `mapGet` through `Map.prototype.set`. -/
theorem mapSet_get (m : List (String × DependencyNode)) (k : String)
    (v : DependencyNode) (b : String) :
    mapGet (mapSet m k v) b = if b = k then some v else mapGet m b := by
  unfold mapSet
  by_cases hany : (m.any fun e => e.1 = k) = true
  · rw [if_pos hany]
    have hrw : (m.map fun e => if e.1 = k then (k, v) else e) =
        m.map fun e => (e.1, if e.1 = k then v else e.2) := by
      refine List.map_congr_left ?_
      intro e _
      by_cases he : e.1 = k <;> simp [he]
    rw [hrw, mapGet_mapVal (fun kk n => if kk = k then v else n) m b]
    by_cases hb : b = k
    · subst hb
      have hs : (mapGet m b).isSome = true := by
        rw [mapGet_isSome_eq_any]; exact hany
      cases hg : mapGet m b
      · rw [hg] at hs; simp at hs
      · simp
    · cases hg : mapGet m b <;> simp [hb]
  · rw [if_neg hany]
    have hfind : (m.find? fun e => e.1 = k) = none := by
      rw [List.find?_eq_none]
      intro x hx
      simp only [decide_eq_true_eq]
      intro hxe
      exact hany (List.any_eq_true.mpr ⟨x, hx, by simp [hxe]⟩)
    by_cases hb : b = k
    · subst hb
      rw [mapGet, List.find?_append, hfind]
      simp [List.find?]
    · rw [mapGet, List.find?_append]
      have hsing : ([(k, v)].find? fun e => e.1 = b) = none := by
        have : ¬(k = b) := fun hx => hb hx.symm
        simp [List.find?, this]
      rw [hsing, mapGet, if_neg hb]
      cases hf : m.find? fun e => e.1 = b <;> simp [hf]

/-- `analyzeFile` always builds its node with an empty `importedBy`. -/
theorem analyzeFile_importedBy (w : World) (root f : String) (n : DependencyNode)
    (h : analyzeFile w root f = some n) : n.deps.importedBy = [] := by
  unfold analyzeFile at h
  by_cases herr : (parseFile w f).error.isSome = true
  · simp [herr] at h
  · simp only [herr, Bool.false_eq_true, if_false, Option.some.injEq] at h
    rw [← h]

/-- Every node of the step-1 map starts with an empty `importedBy`. -/
theorem nodesPhase_importedBy (w : World) (root : String) (files : List String) :
    ∀ b n, mapGet (nodesPhase w root files) b = some n → n.deps.importedBy = [] := by
  suffices hgen : ∀ (fs : List String) (m : List (String × DependencyNode)),
      (∀ b n, mapGet m b = some n → n.deps.importedBy = []) →
      ∀ b n,
        mapGet
          (fs.foldl
            (fun m file =>
              match analyzeFile w root file with
              | some node => mapSet m file node
              | none => m)
            m) b = some n →
        n.deps.importedBy = [] by
    exact hgen files [] (by intro b n h; simp [mapGet] at h)
  intro fs
  induction fs with
  | nil => intro m hm; exact hm
  | cons f rest ih =>
    intro m hm
    simp only [List.foldl_cons]
    cases hf : analyzeFile w root f with
    | none => exact ih m hm
    | some node =>
      refine ih _ ?_
      intro b n hget
      rw [mapSet_get] at hget
      by_cases hb : b = f
      · rw [if_pos hb] at hget
        cases hget
        exact analyzeFile_importedBy w root f node hf
      · rw [if_neg hb] at hget
        exact hm b n hget

/-- C1, confirmed: at every intermediate point of the edge loop (after
`k` iterations, for any `k`) and in the final graph of `analyze`, an
edge `(A, B, 'import')` between stored nodes is present iff `B`'s
`importedBy` contains `A` — the two sides are updated together. -/
theorem analyze_edge_iff_importedBy (w : World) (o : PathResolverOptions)
    (files : List String) :
    (∀ k a b n, mapGet (partialGraph w o files k).nodes b = some n →
        (({ fromPath := a, toPath := b, type := "import" } : DependencyEdge) ∈
            (partialGraph w o files k).edges ↔
          a ∈ n.deps.importedBy)) ∧
      (∀ a b n, mapGet (analyzeGraph w o files).nodes b = some n →
        (({ fromPath := a, toPath := b, type := "import" } : DependencyEdge) ∈
            (analyzeGraph w o files).edges ↔
          a ∈ n.deps.importedBy)) := by
  have hinit : EdgeInv { nodes := nodesPhase w o.rootDir files, edges := [] } := by
    intro a b n hget
    have := nodesPhase_importedBy w o.rootDir files b n hget
    simp [this]
  exact
    ⟨fun k => foldl_edgeStep_inv (analyzerResolver w o) _ _ hinit,
      foldl_edgeStep_inv (analyzerResolver w o) _ _ hinit⟩



/-- Witness for C1 at a concrete two-file analysis. -/
theorem analyze_edge_iff_importedBy_witness :
    ({ fromPath := "/p/A.ts", toPath := "/p/B.ts", type := "import" } : DependencyEdge) ∈
        (analyzeGraph wExt optsP ["/p/A.ts", "/p/B.ts"]).edges ↔
      "/p/A.ts" ∈ nodeBExt.deps.importedBy :=
  (analyze_edge_iff_importedBy wExt optsP ["/p/A.ts", "/p/B.ts"]).2
    "/p/A.ts" "/p/B.ts" nodeBExt (by decide)

/-! ### C4 — cycle detection for mutually importing files -/

/-- One unfolding of the detector's DFS. -/
theorem dfsCycles_succ (g : List (String × DependencyNode)) (fuel : Nat) (node : String)
    (path : List String) (st₀ : CycState) :
    dfsCycles g (fuel + 1) node path st₀ =
      (let st := { st₀ with visited := st₀.visited ++ [node], stack := st₀.stack ++ [node] }
       let st :=
         match mapGet g node with
         | none => st
         | some nd =>
           nd.deps.imports.foldl
             (fun st dep =>
               match findDepNode g dep with
               | none => st
               | some hit =>
                 let depPath := hit.1
                 if !st.visited.contains depPath then
                   dfsCycles g fuel depPath (path ++ [depPath]) st
                 else if st.stack.contains depPath then
                   match path.indexOf? depPath with
                   | some cycleStart =>
                     { st with cycles := st.cycles ++ [path.drop cycleStart ++ [depPath]] }
                   | none => st
                 else st)
             st
       { st with stack := st.stack.filter (· ≠ node) }) := rfl





/-- C4, counterexample: both Vue files parse without error and their
`./`-relative specifiers resolve to each other, yet the cycle detector
returns no cycle — its node matching compares the raw specifier by
`relativePath` equality or `id` suffix, and `./B.vue` matches neither
for node id `/p/B.vue`. -/
theorem relative_mutual_import_cycle_missed :
    (parseFile wCyc "/p/A.vue").error = none ∧
      (parseFile wCyc "/p/B.vue").error = none ∧
      (parseFile wCyc "/p/A.vue").imports.map (·.source) = ["./B.vue"] ∧
      (parseFile wCyc "/p/B.vue").imports.map (·.source) = ["./A.vue"] ∧
      analyzerResolver wCyc optsP "./B.vue" "/p/A.vue" = some "/p/B.vue" ∧
      analyzerResolver wCyc optsP "./A.vue" "/p/B.vue" = some "/p/A.vue" ∧
      findCircularDependencies (analyzeGraph wCyc optsP ["/p/A.vue", "/p/B.vue"]).nodes = [] := by
  refine ⟨by decide, by decide, by decide, by decide, by decide, by decide, by decide⟩

/-- C4, amended: for two distinct nodes that each carry one import
specifier, and whose specifiers match the partner node under the
detector's own lookup (`relativePath` equality or id-suffix match), the
detector returns exactly the chain `[A, B, A]`. Mutual imports through
specifiers the lookup cannot match (such as `./`-relative ones that
resolve but do not literally suffix-match) are missed. -/
theorem cycle_detected_for_matching_mutual_imports
    (a b sa sb : String) (na nb : DependencyNode)
    (hne : a ≠ b)
    (ha : na.deps.imports = [sb])
    (hb : nb.deps.imports = [sa])
    (hfb : findDepNode [(a, na), (b, nb)] sb = some (b, nb))
    (hfa : findDepNode [(a, na), (b, nb)] sa = some (a, na)) :
    findCircularDependencies [(a, na), (b, nb)] = [[a, b, a]] := by
  have hne' : b ≠ a := hne.symm
  have hgeta : mapGet [(a, na), (b, nb)] a = some na := by
    simp [mapGet, List.find?]
  have hgetb : mapGet [(a, na), (b, nb)] b = some nb := by
    simp [mapGet, List.find?, hne]
  have hInner : ∀ f : Nat,
      dfsCycles [(a, na), (b, nb)] (f + 1) b [a, b]
          { cycles := [], visited := [a], stack := [a] } =
        { cycles := [[a, b, a]], visited := [a, b], stack := [a] } := by
    intro f
    rw [dfsCycles_succ]
    simp only [hgetb, hb, List.foldl_cons, List.foldl_nil, hfa]
    simp [List.indexOf?, List.findIdx?_cons, List.filter, hne, hne']
  have hOuter : ∀ f : Nat,
      dfsCycles [(a, na), (b, nb)] (f + 1 + 1) a [a]
          { cycles := [], visited := [], stack := [] } =
        { cycles := [[a, b, a]], visited := [a, b], stack := [] } := by
    intro f
    rw [dfsCycles_succ]
    simp only [hgeta, ha, List.foldl_cons, List.foldl_nil, hfb, List.nil_append]
    simp [hne', hInner f, List.filter]
  simp only [findCircularDependencies, List.foldl_cons, List.foldl_nil,
    List.length_cons, List.length_nil]
  simp [hOuter (0 + 1)]



/-- Witness for the amended C4 statement at concrete suffix-matching
nodes. -/
theorem cycle_detected_for_matching_mutual_imports_witness :
    findCircularDependencies [("/p/A.vue", cycNodeA), ("/p/B.vue", cycNodeB)] =
      [["/p/A.vue", "/p/B.vue", "/p/A.vue"]] :=
  cycle_detected_for_matching_mutual_imports "/p/A.vue" "/p/B.vue" "A.vue" "B.vue"
    cycNodeA cycNodeB (by decide) (by decide) (by decide) (by decide) (by decide)

end Voyager
